import Mathlib

/-!
Verification of the provider-selection and acquisition-fallback core of
pycasso (`src/piblo/pycasso.py`, class `Pycasso`).

The embedding models:
* the provider-mode enum tags of `piblo.constants.ProvidersConst`
  (EXTERNAL, HISTORIC, STABLE, DALLE, AUTOMATIC, TEST) as an inductive type
  of distinct tags, following the data model (the concrete enum values live
  in `piblo/constants.py`, outside the analysed file; only their
  distinctness is used anywhere);
* the five provider weights of the loaded configuration
  (`config.external_amount`, `config.historic_amount`,
  `config.stability_amount`, `config.dalle_amount`,
  `config.automatic_amount`) as integers;
* `Pycasso.get_random_provider_mode`, including the semantics of CPython's
  `random.choices(population, weights=w, k=1)[0]`: cumulative weights via
  `itertools.accumulate`, then `bisect.bisect_right(cum_weights,
  random() * total, 0, len(population) - 1)`.  The float draw
  `random() * total` lies in `[0, total)`; since the cumulative weights are
  integers, only its floor matters, so the draw is injected as an integer
  `u` with `0 ≤ u < total`;
* `Pycasso.remove_provider_mode`;
* `Pycasso.get_image` abstracted over a per-run fetch oracle
  `fetch : Provider → Bool` standing for the external collaborators
  (directory loaders and generation APIs): `fetch p = true` iff dispatching
  to `p` yields an image (`self.image_base` not `None`) during this run.
  The TEST branch loads the packaged test image (which the code assumes to
  succeed) when `test_enabled`, and otherwise falls through to the
  invalid-provider branch which calls `exit()`;
* `Pycasso.get_image_fallback_modes` as a fuel-bounded recursion; the fuel
  bounds the number of iterations of the `while error` loop, and a
  distinguished `spinning` result means the loop is still running after
  the given number of fetch attempts.  Logging and the exception-icon
  append performed on each failure have no bearing on control flow and are
  not modelled.
-/

/-- The provider mode tags of `ProvidersConst` used by `Pycasso`
(enum values defined in `piblo/constants.py`; modelled as distinct tags). -/
inductive Provider where
  | external
  | historic
  | stable
  | dalle
  | automatic
  | test
deriving DecidableEq, Repr

/-- The five provider weight fields of the loaded `Configs` object that
`get_random_provider_mode` and `remove_provider_mode` read and write. -/
structure Configs where
  external_amount : Int
  historic_amount : Int
  stability_amount : Int
  dalle_amount : Int
  automatic_amount : Int
deriving DecidableEq, Repr

/-- The list `provider_types` built in `get_random_provider_mode`. -/
def provider_types : List Provider :=
  [Provider.external, Provider.historic, Provider.stable, Provider.dalle,
   Provider.automatic]

/-- The tuple `provider_weights` built in `get_random_provider_mode`,
taken from the current configuration. -/
def provider_weights (c : Configs) : List Int :=
  [c.external_amount, c.historic_amount, c.stability_amount,
   c.dalle_amount, c.automatic_amount]

/-- `itertools.accumulate` over integer weights, as used by
`random.choices`: running partial sums starting from `acc`. -/
def accumulate (acc : Int) : List Int → List Int
  | [] => []
  | x :: xs => (acc + x) :: accumulate (acc + x) xs

/-- One step bound for `bisect.bisect_right`'s `while lo < hi` loop: the
gap `hi - lo` shrinks by at least one per iteration, so `hi - lo` is
enough fuel; when the fuel runs out `lo = hi` and the loop would have
stopped anyway. -/
def bisect_right_aux : Nat → List Int → Int → Nat → Nat → Nat
  | 0, _, _, lo, _ => lo
  | fuel + 1, a, x, lo, hi =>
    if lo < hi then
      if x < a.getD ((lo + hi) / 2) 0 then
        bisect_right_aux fuel a x lo ((lo + hi) / 2)
      else
        bisect_right_aux fuel a x ((lo + hi) / 2 + 1) hi
    else lo

/-- CPython `bisect.bisect_right(a, x, lo, hi)`: binary search returning
the insertion point, here over integer cumulative weights and an integer
probe. -/
def bisect_right (a : List Int) (x : Int) (lo hi : Nat) : Nat :=
  bisect_right_aux (hi - lo) a x lo hi

/-- CPython `random.choices(population, weights, k=1)[0]` specialised to
the five-provider call site: cumulative weights, then
`population[bisect_right(cum_weights, random() * total, 0, n - 1)]`,
with the floor of the float draw injected as `u`.  The returned index is
at most `n - 1`, so the `getD` default is never used. -/
def random_choices (population : List Provider) (weights : List Int)
    (u : Int) : Provider :=
  let cum_weights := accumulate 0 weights
  let hi := population.length - 1
  population.getD (bisect_right cum_weights u 0 hi) Provider.test

/-- `Pycasso.get_random_provider_mode`: sums the weights; if the total is
`≤ 0` returns the TEST provider without drawing, otherwise performs one
weighted random draw via `random.choices`.  The fresh random draw
(`random.seed()` then `random()`) is injected as `u`. -/
def get_random_provider_mode (c : Configs) (u : Int) : Provider :=
  let total_amounts := (provider_weights c).sum
  if total_amounts ≤ 0 then Provider.test
  else random_choices provider_types (provider_weights c) u

/-- `Pycasso.remove_provider_mode`: zeroes the weight of the given mode;
an unrecognised mode (e.g. TEST) only logs a warning and changes
nothing. -/
def remove_provider_mode (c : Configs) (mode : Provider) : Configs :=
  if mode = Provider.external then { c with external_amount := 0 }
  else if mode = Provider.historic then { c with historic_amount := 0 }
  else if mode = Provider.stable then { c with stability_amount := 0 }
  else if mode = Provider.dalle then { c with dalle_amount := 0 }
  else if mode = Provider.automatic then { c with automatic_amount := 0 }
  else c

/-- Result of one `Pycasso.get_image` call: an image together with the
provider used, a `None` image together with the provider that failed, or
process termination via `exit()` (the invalid-provider branch, reached
when TEST is selected but `test_enabled` is false). -/
inductive GetImageResult where
  | image (provider : Provider)
  | noimage (provider : Provider)
  | exited
deriving DecidableEq, Repr

/-- `Pycasso.get_image`, abstracted over the per-run fetch oracle:
selects a provider with `get_random_provider_mode` (draw `u`), then
dispatches.  EXTERNAL/HISTORIC load from a directory, STABLE/DALLE/
AUTOMATIC call a generation API; in all five cases the call returns
`(self.image_base, provider_type)` where `image_base` is `None` exactly
when the collaborator produced no image (`fetch p = false`).  TEST with
`test_enabled` loads the packaged test image; TEST without it reaches the
invalid-provider branch and exits. -/
def get_image (fetch : Provider → Bool) (test_enabled : Bool) (c : Configs)
    (u : Int) : GetImageResult :=
  match get_random_provider_mode c u with
  | Provider.external =>
      if fetch Provider.external then GetImageResult.image Provider.external
      else GetImageResult.noimage Provider.external
  | Provider.historic =>
      if fetch Provider.historic then GetImageResult.image Provider.historic
      else GetImageResult.noimage Provider.historic
  | Provider.test =>
      if test_enabled then GetImageResult.image Provider.test
      else GetImageResult.exited
  | Provider.stable =>
      if fetch Provider.stable then GetImageResult.image Provider.stable
      else GetImageResult.noimage Provider.stable
  | Provider.dalle =>
      if fetch Provider.dalle then GetImageResult.image Provider.dalle
      else GetImageResult.noimage Provider.dalle
  | Provider.automatic =>
      if fetch Provider.automatic then GetImageResult.image Provider.automatic
      else GetImageResult.noimage Provider.automatic

/-- Outcome of `Pycasso.get_image_fallback_modes`: an image from some
provider, process exit, or (`spinning`) the `while error` loop still
running after the allotted number of fetch attempts. -/
inductive FallbackResult where
  | image (provider : Provider)
  | exited
  | spinning
deriving DecidableEq, Repr

/-- `Pycasso.get_image_fallback_modes`: the `while error` loop.  Each
iteration calls `get_image`; on a `None` image it removes the failed
provider from circulation and retries.  `k` counts the iterations already
performed (indexing the fresh random draws `rand k total`), and the fuel
bounds the remaining iterations. -/
def get_image_fallback_modes (fetch : Provider → Bool) (test_enabled : Bool)
    (rand : Nat → Int → Int) : Nat → Configs → Nat → FallbackResult
  | _, _, 0 => FallbackResult.spinning
  | k, c, fuel + 1 =>
    match get_image fetch test_enabled c (rand k ((provider_weights c).sum)) with
    | GetImageResult.image p => FallbackResult.image p
    | GetImageResult.exited => FallbackResult.exited
    | GetImageResult.noimage p =>
        get_image_fallback_modes fetch test_enabled rand (k + 1)
          (remove_provider_mode c p) fuel

/-- The weight the configuration assigns to a provider mode (TEST carries
no weight and never appears in `provider_weights`). -/
def weightOf (c : Configs) : Provider → Int
  | Provider.external => c.external_amount
  | Provider.historic => c.historic_amount
  | Provider.stable => c.stability_amount
  | Provider.dalle => c.dalle_amount
  | Provider.automatic => c.automatic_amount
  | Provider.test => 0

/-- The data-model invariant on weight tables: every configured weight is
a non-negative integer. -/
def WeightsNonneg (c : Configs) : Prop :=
  0 ≤ c.external_amount ∧ 0 ≤ c.historic_amount ∧ 0 ≤ c.stability_amount ∧
  0 ≤ c.dalle_amount ∧ 0 ≤ c.automatic_amount

/-- Number of providers still in circulation (positive weight); the
termination measure of the fallback loop. -/
def liveCount (c : Configs) : Nat :=
  (if 0 < c.external_amount then 1 else 0) +
  (if 0 < c.historic_amount then 1 else 0) +
  (if 0 < c.stability_amount then 1 else 0) +
  (if 0 < c.dalle_amount then 1 else 0) +
  (if 0 < c.automatic_amount then 1 else 0)

/-- The run signals that every source was exhausted: the loop fell back
to the TEST sentinel (all weights zeroed) or exited there. -/
def all_sources_exhausted : FallbackResult → Bool
  | FallbackResult.image Provider.test => true
  | FallbackResult.exited => true
  | _ => false

/-! ### Characterising one weighted draw -/

/-- Full unfolding of the binary search at the concrete call site: five
population entries, search bounds `0` and `4`.  The search always lands on
the index whose cumulative bounds bracket the probe. -/
lemma bisect_right_five (w0 w1 w2 w3 w4 x : Int) :
    bisect_right [w0, w1, w2, w3, w4] x 0 4 =
      if x < w2 then (if x < w1 then (if x < w0 then 0 else 1) else 2)
      else if x < w3 then 3 else 4 := by
  by_cases h2 : x < w2 <;> by_cases h1 : x < w1 <;> by_cases h0 : x < w0 <;>
    by_cases h3 : x < w3 <;>
    simp [bisect_right, bisect_right_aux, List.getD, h0, h1, h2, h3]

/-- With a positive total, `get_random_provider_mode` is the cumulative
interval lookup on the five weights. -/
lemma get_random_provider_mode_pos (c : Configs) (u : Int)
    (h : ¬ (provider_weights c).sum ≤ 0) :
    get_random_provider_mode c u =
      if u < 0 + c.external_amount + c.historic_amount + c.stability_amount then
        if u < 0 + c.external_amount + c.historic_amount then
          if u < 0 + c.external_amount then Provider.external
          else Provider.historic
        else Provider.stable
      else if u < 0 + c.external_amount + c.historic_amount + c.stability_amount
          + c.dalle_amount then Provider.dalle
      else Provider.automatic := by
  simp only [get_random_provider_mode, provider_weights] at h ⊢
  rw [if_neg h]
  simp only [random_choices, provider_types, provider_weights, accumulate,
    List.length]
  norm_num
  rw [bisect_right_five]
  split_ifs <;> rfl

/-- With a positive total and a draw in range, the selected provider is one
of the five configured sources and carries strictly positive weight (so a
zero-weight source is selected with probability zero). -/
lemma get_random_provider_mode_live (c : Configs) (u : Int)
    (hS : 0 < (provider_weights c).sum) (h0 : 0 ≤ u)
    (h1 : u < (provider_weights c).sum) :
    get_random_provider_mode c u ∈ provider_types ∧
      0 < weightOf c (get_random_provider_mode c u) := by
  rw [get_random_provider_mode_pos c u (by omega)]
  simp only [provider_weights, List.sum_cons, List.sum_nil] at hS h1
  split_ifs <;> refine ⟨by simp [provider_types], ?_⟩ <;> simp [weightOf] <;>
    omega

/-! ### Removal lemmas -/

lemma remove_provider_mode_test (c : Configs) :
    remove_provider_mode c Provider.test = c := by
  simp [remove_provider_mode]

lemma weightOf_remove_self (c : Configs) (p : Provider)
    (hp : p ≠ Provider.test) :
    weightOf (remove_provider_mode c p) p = 0 := by
  cases p <;> simp_all [remove_provider_mode, weightOf]

lemma weightOf_remove_other (c : Configs) (p q : Provider) (hq : q ≠ p) :
    weightOf (remove_provider_mode c p) q = weightOf c q := by
  cases p <;> cases q <;> simp_all [remove_provider_mode, weightOf]

lemma weightOf_remove_zero (c : Configs) (m q : Provider)
    (h : weightOf c q = 0) :
    weightOf (remove_provider_mode c m) q = 0 := by
  cases m <;> cases q <;> simp_all [remove_provider_mode, weightOf]

/-- A source zeroed once stays zeroed through any further removals. -/
lemma weightOf_foldl_remove_zero (ms : List Provider) (c : Configs)
    (q : Provider) (h : weightOf c q = 0) :
    weightOf (List.foldl remove_provider_mode c ms) q = 0 := by
  induction ms generalizing c with
  | nil => exact h
  | cons m ms ih =>
    exact ih (remove_provider_mode c m) (weightOf_remove_zero c m q h)

lemma WeightsNonneg_remove (c : Configs) (p : Provider)
    (hnn : WeightsNonneg c) :
    WeightsNonneg (remove_provider_mode c p) := by
  cases p <;> simp_all [remove_provider_mode, WeightsNonneg]

lemma mem_provider_types_ne_test (p : Provider) (hp : p ∈ provider_types) :
    p ≠ Provider.test := by
  fin_cases hp <;> simp

/-- Removing a provider that is still in circulation strictly shrinks the
set of live providers. -/
lemma liveCount_remove_lt (c : Configs) (p : Provider)
    (hp : p ∈ provider_types) (hpos : 0 < weightOf c p) :
    liveCount (remove_provider_mode c p) < liveCount c := by
  fin_cases hp <;>
    simp_all [liveCount, remove_provider_mode, weightOf]

lemma liveCount_le (c : Configs) : liveCount c ≤ provider_types.length := by
  simp only [liveCount, provider_types, List.length]
  split_ifs <;> norm_num

/-! ### The fallback loop -/

/-- When selection does not fall back to TEST, `get_image` reduces to the
fetch oracle on the selected provider. -/
lemma get_image_pos (fetch : Provider → Bool) (te : Bool) (c : Configs)
    (u : Int) (h : get_random_provider_mode c u ≠ Provider.test) :
    get_image fetch te c u =
      if fetch (get_random_provider_mode c u) then
        GetImageResult.image (get_random_provider_mode c u)
      else GetImageResult.noimage (get_random_provider_mode c u) := by
  cases hsel : get_random_provider_mode c u <;> simp_all [get_image]

lemma all_sources_exhausted_image (p : Provider) (hp : p ≠ Provider.test) :
    all_sources_exhausted (FallbackResult.image p) = false := by
  cases p <;> simp_all [all_sources_exhausted]

/-- After removing a source known to fail, "all remaining live sources
fail" is equivalent to "all originally live sources fail". -/
lemma exhausted_transport (fetch : Provider → Bool) (c : Configs)
    (p : Provider) (hmem : p ∈ provider_types) (hf : fetch p = false) :
    ((∀ q ∈ provider_types, 0 < weightOf (remove_provider_mode c p) q →
        fetch q = false) ↔
      (∀ q ∈ provider_types, 0 < weightOf c q → fetch q = false)) := by
  constructor
  · intro h q hq hpos
    by_cases hqp : q = p
    · subst hqp; exact hf
    · exact h q hq (by rwa [weightOf_remove_other c p q hqp])
  · intro h q hq hpos
    by_cases hqp : q = p
    · subst hqp
      rw [weightOf_remove_self c q (mem_provider_types_ne_test q hq)] at hpos
      exact absurd hpos (by simp)
    · rw [weightOf_remove_other c p q hqp] at hpos
      exact h q hq hpos

lemma weights_zero_of_nonpos (c : Configs) (hnn : WeightsNonneg c)
    (hS : (provider_weights c).sum ≤ 0) :
    ∀ p ∈ provider_types, weightOf c p = 0 := by
  obtain ⟨h1, h2, h3, h4, h5⟩ := hnn
  simp only [provider_weights, List.sum_cons, List.sum_nil] at hS
  intro p hp
  fin_cases hp <;> simp only [weightOf] <;> omega

/-- Main invariant of the `while error` loop: with enough fuel to cover the
live providers, the loop does not spin, and it ends in the all-sources-
exhausted signal exactly when every live provider's fetch fails. -/
lemma fallback_spec (fetch : Provider → Bool) (te : Bool)
    (rand : Nat → Int → Int)
    (hrand : ∀ k t, 0 < t → 0 ≤ rand k t ∧ rand k t < t) :
    ∀ fuel k c, WeightsNonneg c → liveCount c < fuel →
      get_image_fallback_modes fetch te rand k c fuel ≠
          FallbackResult.spinning ∧
      (all_sources_exhausted (get_image_fallback_modes fetch te rand k c fuel)
          = true ↔
        ∀ p ∈ provider_types, 0 < weightOf c p → fetch p = false) := by
  intro fuel
  induction fuel with
  | zero => intro k c _ hlt; omega
  | succ n ih =>
    intro k c hnn hlt
    by_cases hS : (provider_weights c).sum ≤ 0
    · have hz := weights_zero_of_nonpos c hnn hS
      have hsel : get_random_provider_mode c
          (rand k ((provider_weights c).sum)) = Provider.test := by
        simp [get_random_provider_mode, hS]
      have hrun : get_image_fallback_modes fetch te rand k c (n + 1) =
          if te then FallbackResult.image Provider.test
          else FallbackResult.exited := by
        simp only [get_image_fallback_modes, get_image, hsel]
        cases te <;> simp
      rw [hrun]
      constructor
      · cases te <;> simp
      · cases te <;> simp only [if_true, if_false, all_sources_exhausted] <;>
          simp <;> intro p hp hpos <;> rw [hz p hp] at hpos <;>
          exact absurd hpos (by simp)
    · have hSpos : 0 < (provider_weights c).sum := by omega
      obtain ⟨hu0, hu1⟩ := hrand k _ hSpos
      obtain ⟨hmem, hpos⟩ :=
        get_random_provider_mode_live c _ hSpos hu0 hu1
      set p := get_random_provider_mode c (rand k ((provider_weights c).sum))
        with hpdef
      have hptest := mem_provider_types_ne_test p hmem
      have hgi := get_image_pos fetch te c (rand k ((provider_weights c).sum))
        (by rw [← hpdef]; exact hptest)
      rw [← hpdef] at hgi
      cases hf : fetch p with
      | false =>
        have hrun : get_image_fallback_modes fetch te rand k c (n + 1) =
            get_image_fallback_modes fetch te rand (k + 1)
              (remove_provider_mode c p) n := by
          simp only [get_image_fallback_modes]
          rw [hgi, hf]
          simp
        rw [hrun]
        have h1 := ih (k + 1) (remove_provider_mode c p)
          (WeightsNonneg_remove c p hnn)
          (by have := liveCount_remove_lt c p hmem hpos; omega)
        exact ⟨h1.1, h1.2.trans (exhausted_transport fetch c p hmem hf)⟩
      | true =>
        have hrun : get_image_fallback_modes fetch te rand k c (n + 1) =
            FallbackResult.image p := by
          simp only [get_image_fallback_modes]
          rw [hgi, hf]
          simp
        rw [hrun]
        refine ⟨by simp, ?_⟩
        rw [all_sources_exhausted_image p hptest]
        simp only [Bool.false_eq_true, false_iff]
        intro hall
        exact absurd (hall p hmem hpos) (by simp [hf])

/-! ### Claim theorems -/

/-- Counting integer draws inside a half-open interval. -/
lemma count_range_interval (n : Nat) (lo hi : Int) (h0 : 0 ≤ lo)
    (h1 : lo ≤ hi) (h2 : hi ≤ (n : Int)) :
    ((Finset.range n).filter
        (fun (k : Nat) => lo ≤ (k : Int) ∧ (k : Int) < hi)).card =
      (hi - lo).toNat := by
  have hIco : (Finset.range n).filter
      (fun (k : Nat) => lo ≤ (k : Int) ∧ (k : Int) < hi) =
        Finset.Ico lo.toNat hi.toNat := by
    ext k
    simp only [Finset.mem_filter, Finset.mem_range, Finset.mem_Ico]
    omega
  rw [hIco, Nat.card_Ico]
  omega

/-- Claim C1: for every initial weight table (all weights non-negative,
per the data model) and every in-range random stream, the acquisition
loop `get_image_fallback_modes` terminates within
`numberOfSources + 1 = provider_types.length + 1` fetch attempts (the
loop is never still spinning after that much fuel), and it ends in the
all-sources-exhausted signal (fallback to the TEST sentinel, or the
`exit()` taken there when test mode is disabled) if and only if every
configured source — every provider with positive weight — fails in that
run.  Each failed attempt permanently zeroes one provider's weight, so
the loop cannot run forever. -/
theorem fallback_loop_bound_and_exhaustion (fetch : Provider → Bool)
    (te : Bool) (rand : Nat → Int → Int) (c : Configs)
    (hnn : WeightsNonneg c)
    (hrand : ∀ k t, 0 < t → 0 ≤ rand k t ∧ rand k t < t) :
    get_image_fallback_modes fetch te rand 0 c (provider_types.length + 1) ≠
        FallbackResult.spinning ∧
      (all_sources_exhausted (get_image_fallback_modes fetch te rand 0 c
            (provider_types.length + 1)) = true ↔
        ∀ p ∈ provider_types, 0 < weightOf c p → fetch p = false) :=
  fallback_spec fetch te rand hrand (provider_types.length + 1) 0 c hnn
    (by have := liveCount_le c; omega)

/-- Witness for C1: a table with all five weights 1 and every fetch
failing runs to completion within the bound. -/
theorem fallback_loop_bound_and_exhaustion_witness :
    get_image_fallback_modes (fun _ => false) true (fun _ _ => 0) 0
        ⟨1, 1, 1, 1, 1⟩ (provider_types.length + 1) ≠
      FallbackResult.spinning :=
  (fallback_loop_bound_and_exhaustion (fun _ => false) true (fun _ _ => 0)
    ⟨1, 1, 1, 1, 1⟩
    ⟨by norm_num, by norm_num, by norm_num, by norm_num, by norm_num⟩
    (fun _ t ht => ⟨le_refl 0, ht⟩)).1

/-- Claim C2: whenever the configured weights sum to a value `≤ 0`,
`get_random_provider_mode` returns the TEST provider id, for every value
of the (unused) random draw — no draw is consulted and the function
cannot fail. -/
theorem get_random_provider_mode_total_nonpositive (c : Configs) (u : Int)
    (h : (provider_weights c).sum ≤ 0) :
    get_random_provider_mode c u = Provider.test := by
  simp [get_random_provider_mode, h]

/-- Witness for C2: a table with a negative total (weights -2, 1, 0, 0, 0)
resolves to TEST. -/
theorem get_random_provider_mode_total_nonpositive_witness :
    get_random_provider_mode ⟨-2, 1, 0, 0, 0⟩ 3 = Provider.test :=
  get_random_provider_mode_total_nonpositive ⟨-2, 1, 0, 0, 0⟩ 3 (by decide)

/-- Claim C3: once `remove_provider_mode` has zeroed a source's weight,
that source is never selected again for the remainder of the run: after
any further sequence of removals, every call of `get_random_provider_mode`
whose total weight is positive and whose draw is in range returns a
different provider (a zero-weight source is selected with probability
zero). -/
theorem removed_provider_never_selected (c : Configs) (p : Provider)
    (ms : List Provider) (u : Int)
    (hS : 0 < (provider_weights
        (List.foldl remove_provider_mode (remove_provider_mode c p) ms)).sum)
    (hu0 : 0 ≤ u)
    (hu1 : u < (provider_weights
        (List.foldl remove_provider_mode (remove_provider_mode c p) ms)).sum) :
    get_random_provider_mode
        (List.foldl remove_provider_mode (remove_provider_mode c p) ms) u ≠
      p := by
  intro hcontra
  obtain ⟨hmem, hpos⟩ := get_random_provider_mode_live
    (List.foldl remove_provider_mode (remove_provider_mode c p) ms) u hS hu0
    hu1
  rw [hcontra] at hmem hpos
  by_cases hpt : p = Provider.test
  · subst hpt
    exact absurd hmem (by simp [provider_types])
  · have hz : weightOf
        (List.foldl remove_provider_mode (remove_provider_mode c p) ms) p =
          0 :=
      weightOf_foldl_remove_zero ms (remove_provider_mode c p) p
        (weightOf_remove_self c p hpt)
    rw [hz] at hpos
    exact absurd hpos (by simp)

/-- Witness for C3: after removing EXTERNAL from the table (1, 1, 0, 0, 0),
the draw 0 over the remaining total 1 does not select EXTERNAL. -/
theorem removed_provider_never_selected_witness :
    get_random_provider_mode
        (List.foldl remove_provider_mode
          (remove_provider_mode ⟨1, 1, 0, 0, 0⟩ Provider.external) []) 0 ≠
      Provider.external :=
  removed_provider_never_selected ⟨1, 1, 0, 0, 0⟩ Provider.external [] 0
    (by decide) (by decide) (by decide)

/-- Claim C4: for every weight table with non-negative weights and total
`S > 0`, `get_random_provider_mode` performs a single weighted draw in
which provider `i` is selected with probability `weight_i / S` over the
injected uniform randomness: among the `S` equiprobable in-range draws
`u ∈ [0, S)`, exactly `weight_i` of them select provider `i`.  The
function is deterministic in the injected draw, which is fresh on each
call — no memoization. -/
theorem weighted_draw_distribution (c : Configs) (hnn : WeightsNonneg c)
    (hS : 0 < (provider_weights c).sum) (p : Provider)
    (hp : p ∈ provider_types) :
    ((Finset.range (provider_weights c).sum.toNat).filter
        (fun (k : Nat) => get_random_provider_mode c (k : Int) = p)).card =
      (weightOf c p).toNat := by
  obtain ⟨h1, h2, h3, h4, h5⟩ := hnn
  have hSsum : (provider_weights c).sum =
      c.external_amount + (c.historic_amount + (c.stability_amount +
        (c.dalle_amount + (c.automatic_amount + 0)))) := by
    simp [provider_weights]
  have hSn : ((provider_weights c).sum.toNat : Int) =
      (provider_weights c).sum := by omega
  fin_cases hp
  · have hiff : ∀ k ∈ Finset.range (provider_weights c).sum.toNat,
        (get_random_provider_mode c (k : Int) = Provider.external ↔
          ((0 : Int) ≤ (k : Int) ∧ (k : Int) < c.external_amount)) := by
      intro k hk
      simp only [Finset.mem_range] at hk
      rw [get_random_provider_mode_pos c k (by omega)]
      split_ifs <;> simp <;> omega
    rw [Finset.filter_congr hiff,
      count_range_interval _ 0 c.external_amount (le_refl 0) h1 (by omega)]
    simp [weightOf]
  · have hiff : ∀ k ∈ Finset.range (provider_weights c).sum.toNat,
        (get_random_provider_mode c (k : Int) = Provider.historic ↔
          (c.external_amount ≤ (k : Int) ∧
            (k : Int) < c.external_amount + c.historic_amount)) := by
      intro k hk
      simp only [Finset.mem_range] at hk
      rw [get_random_provider_mode_pos c k (by omega)]
      split_ifs <;> simp <;> omega
    rw [Finset.filter_congr hiff,
      count_range_interval _ c.external_amount
        (c.external_amount + c.historic_amount) h1 (by omega) (by omega)]
    simp only [weightOf]
    omega
  · have hiff : ∀ k ∈ Finset.range (provider_weights c).sum.toNat,
        (get_random_provider_mode c (k : Int) = Provider.stable ↔
          (c.external_amount + c.historic_amount ≤ (k : Int) ∧
            (k : Int) < c.external_amount + c.historic_amount +
              c.stability_amount)) := by
      intro k hk
      simp only [Finset.mem_range] at hk
      rw [get_random_provider_mode_pos c k (by omega)]
      split_ifs <;> simp <;> omega
    rw [Finset.filter_congr hiff,
      count_range_interval _ (c.external_amount + c.historic_amount)
        (c.external_amount + c.historic_amount + c.stability_amount)
        (by omega) (by omega) (by omega)]
    simp only [weightOf]
    omega
  · have hiff : ∀ k ∈ Finset.range (provider_weights c).sum.toNat,
        (get_random_provider_mode c (k : Int) = Provider.dalle ↔
          (c.external_amount + c.historic_amount + c.stability_amount ≤
              (k : Int) ∧
            (k : Int) < c.external_amount + c.historic_amount +
              c.stability_amount + c.dalle_amount)) := by
      intro k hk
      simp only [Finset.mem_range] at hk
      rw [get_random_provider_mode_pos c k (by omega)]
      split_ifs <;> simp <;> omega
    rw [Finset.filter_congr hiff,
      count_range_interval _
        (c.external_amount + c.historic_amount + c.stability_amount)
        (c.external_amount + c.historic_amount + c.stability_amount +
          c.dalle_amount) (by omega) (by omega) (by omega)]
    simp only [weightOf]
    omega
  · have hiff : ∀ k ∈ Finset.range (provider_weights c).sum.toNat,
        (get_random_provider_mode c (k : Int) = Provider.automatic ↔
          (c.external_amount + c.historic_amount + c.stability_amount +
              c.dalle_amount ≤ (k : Int) ∧
            (k : Int) < c.external_amount + c.historic_amount +
              c.stability_amount + c.dalle_amount + c.automatic_amount)) := by
      intro k hk
      simp only [Finset.mem_range] at hk
      rw [get_random_provider_mode_pos c k (by omega)]
      split_ifs <;> simp <;> omega
    rw [Finset.filter_congr hiff,
      count_range_interval _
        (c.external_amount + c.historic_amount + c.stability_amount +
          c.dalle_amount)
        (c.external_amount + c.historic_amount + c.stability_amount +
          c.dalle_amount + c.automatic_amount) (by omega) (by omega)
        (by omega)]
    simp only [weightOf]
    omega

/-- Witness for C4: in the table (1, 2, 0, 0, 1), among the four in-range
draws exactly two select HISTORIC. -/
theorem weighted_draw_distribution_witness :
    ((Finset.range (provider_weights ⟨1, 2, 0, 0, 1⟩).sum.toNat).filter
        (fun (k : Nat) => get_random_provider_mode ⟨1, 2, 0, 0, 1⟩ (k : Int) =
          Provider.historic)).card =
      (weightOf ⟨1, 2, 0, 0, 1⟩ Provider.historic).toNat :=
  weighted_draw_distribution ⟨1, 2, 0, 0, 1⟩
    ⟨by norm_num, by norm_num, by norm_num, by norm_num, by norm_num⟩
    (by decide) Provider.historic (by simp [provider_types])
